import Mathlib

/-!
Verification of the headview request-timing and resource-size core.

The definitions below are a shallow embedding of the Go sources:
  * `src/network/client.go` — redirect-following request engine
    (`PerformGetRequest` / `performGetRequestRecursive`), the lifecycle
    trace (`createHTTPTrace`), the TLS classifier (`getTLSVersion`) and
    the resource-size collector (`calculateSize` / `fetchResource`);
  * `src/unnamed/part_000` — the `network` package data model (`Timings`,
    `TimingsCommon`, `Resource`, `ResourceMap`, `ResponseInfo`) and the
    aggregation helpers `ExtractConnectionDurations` / `ExtractDurations`.

Modelling conventions:
  * Go `time.Duration` (an `int64` of nanoseconds) is modelled as `Int`;
    Go `time.Time` values are modelled as `Option Int` where `none` is the
    zero `time.Time` (so `t.IsZero()` becomes `= none`; `time.Now()` is
    never the zero time, so event timestamps are always `some _`).
  * The network is a deterministic oracle `Net : String → Option HopResult`
    describing, for each URL, what a `client.Do` call observes: `none`
    models a transport error, `some hop` carries the status code, the
    `Location` value, the measured durations and the `TimingsCommon`
    record that the attached trace collected during the attempt.
  * Within one hop the code takes `start := time.Now()` just before
    `client.Do` and reads `time.Since(start)` at lines 160/162 of
    client.go, i.e. only after `client.Do` returned (duration
    `requestSendingTime`) and the body was drained by `io.Copy`
    (duration `drainTime`).  The model treats the instructions between
    those measurements as instantaneous, so the clock value read at
    lines 160/162 is `requestSendingTime + drainTime`.  The moment the
    first response byte arrived is `firstByteElapsed` after `start`;
    the code records it in the trace (`times.FirstByteTime`) but does not
    use it at lines 158-164.
-/

set_option maxHeartbeats 1000000

namespace Headview

/-- TimingsCommon from `src/unnamed/part_000` lines 18-51: the connection
timing record filled in by the trace callbacks of one request attempt. -/
structure TimingsCommon where
  DNSLookupStart : Option Int := none
  DNSLookupTime : Int := 0
  TCPConnectStart : Option Int := none
  TCPConnTime : Int := 0
  TLSHandshakeStart : Option Int := none
  TLSHandshakeTime : Int := 0
  TLSVersion : String := ""
  TLSCipherSuite : String := ""
  TLSResumption : Bool := false
  WaitingForServerTime : Int := 0
  FirstByteTime : Option Int := none
  TTFB : Int := 0
  LocalAddr : String := ""
  RemoteAddr : String := ""
  ConnectionReused : Bool := false
  Protocol : String := ""
  HTTPVersion : String := ""
deriving DecidableEq, Repr

/-- Timings from `src/unnamed/part_000` lines 9-15: one record per
top-level `PerformGetRequest` call, with one `TimingsCommon` per hop. -/
structure Timings where
  CommonTimings : List TimingsCommon := []
  RequestSendingTime : Int := 0
  ServerProcessingTime : Int := 0
  TotalRequestTime : Int := 0
  ContentTransferTime : Int := 0
deriving DecidableEq, Repr

/-- ResponseInfo from `src/unnamed/part_000` lines 64-70.  The
`*http.Response` handle is represented by its status code. -/
structure ResponseInfo where
  statusCode : Nat
  URL : String
  ContentSize : Int
  RequestSendingTime : Int
  StartTime : Int
deriving DecidableEq, Repr

/-- What one `client.Do` call on a given URL observes, as provided by the
network oracle (see the module comment for the in-hop timeline). -/
structure HopResult where
  /-- `resp.StatusCode`. -/
  status : Nat
  /-- Value of the `Location` header resolved by `resp.Location()`;
  `none` models `resp.Location()` returning an error. -/
  location : Option String
  /-- Bytes drained from the response body by `io.Copy`. -/
  contentSize : Int
  /-- Duration of `client.Do` (send start to response-headers-received),
  client.go lines 105-107. -/
  requestSendingTime : Int
  /-- Duration of the `io.Copy` body drain, client.go lines 122-124. -/
  drainTime : Int
  /-- Whether the `io.Copy` body drain succeeded (client.go line 126). -/
  drainOk : Bool
  /-- Elapsed time from the hop's `start` to the arrival of the first
  response byte (the trace's `GotFirstResponseByte` moment). -/
  firstByteElapsed : Int
  /-- Absolute wall-clock value of `start := time.Now()` (line 104). -/
  startTime : Int
  /-- The `TimingsCommon` record collected by the trace during this
  attempt (appended at client.go line 115). -/
  times : TimingsCommon
deriving DecidableEq, Repr

/-- Deterministic network oracle: `none` models `client.Do` failing. -/
def Net : Type := String → Option HopResult

/-- Errors returned by the engine (client.go lines 80, 85, 92, 110, 127,
170), keyed by the data the corresponding `fmt.Errorf` interpolates. -/
inductive ReqError where
  | redirectLoop (url : String)
  | maxRedirectDepth (maxDepth : Nat)
  | requestFailed (url : String)
  | bodyReadFailed (url : String)
  | locationInvalid (url : String)
deriving DecidableEq, Repr

/-- Result of a (possibly recursive) engine call: the accumulated
`Timings`, the accumulated `ResponseInfo` list, the instrumentation log of
URLs for which `client.Do` was invoked (in order), and the returned
error, `none` meaning success.  Go returns the accumulators even on
error, since they are mutated through pointers. -/
structure RunResult where
  stats : Timings
  infos : List ResponseInfo
  log : List String
  err : Option ReqError
deriving DecidableEq, Repr

/-- Redirect test of client.go line 167: `300 <= status && status < 400`. -/
def isRedirectStatus (s : Nat) : Bool :=
  decide (300 ≤ s) && decide (s < 400)

/-- performGetRequestRecursive, client.go lines 69-178.

Faithful points: the visited-set test (line 79) precedes the depth test
(line 84); the URL is marked visited (line 88) before the request is
created and sent; the `TimingsCommon` record is appended (line 115)
before the body-read error check (line 126), so a body-read failure
leaves a timing entry without a matching `ResponseInfo`; the four
top-level `Timings` fields are assigned only when the appended
`ResponseInfo` list has length 1 (lines 158-164), using clock readings
taken after the body drain (see module comment); note that lines 131-146
mutate only the local `times` value after it was appended by value at
line 115, so they do not affect the stored record and are not modelled.
The `log` field records each URL passed to `client.Do`. -/
def performGetRequestRecursive (net : Net) (urlArg : String)
    (timeStats : Timings) (responseInfos : List ResponseInfo)
    (log : List String) (visited : List String)
    (depth maxDepth : Nat) : RunResult :=
  if urlArg ∈ visited then
    ⟨timeStats, responseInfos, log, some (.redirectLoop urlArg)⟩
  else if hd : depth > maxDepth then
    ⟨timeStats, responseInfos, log, some (.maxRedirectDepth maxDepth)⟩
  else
    match net urlArg with
    | none => ⟨timeStats, responseInfos, log ++ [urlArg], some (.requestFailed urlArg)⟩
    | some hop =>
      let timeStats1 : Timings :=
        { timeStats with CommonTimings := timeStats.CommonTimings ++ [hop.times] }
      if hop.drainOk = false then
        ⟨timeStats1, responseInfos, log ++ [urlArg], some (.bodyReadFailed urlArg)⟩
      else
        let responseInfos1 := responseInfos ++
          [⟨hop.status, urlArg, hop.contentSize, hop.requestSendingTime, hop.startTime⟩]
        let timeStats2 : Timings :=
          if responseInfos1.length = 1 then
            { timeStats1 with
              RequestSendingTime := hop.requestSendingTime
              ServerProcessingTime :=
                (hop.requestSendingTime + hop.drainTime) - hop.requestSendingTime
              TotalRequestTime := hop.requestSendingTime + hop.drainTime
              ContentTransferTime := hop.drainTime }
          else timeStats1
        if isRedirectStatus hop.status then
          match hop.location with
          | none =>
            ⟨timeStats2, responseInfos1, log ++ [urlArg], some (.locationInvalid urlArg)⟩
          | some loc =>
            performGetRequestRecursive net loc timeStats2 responseInfos1
              (log ++ [urlArg]) (urlArg :: visited) (depth + 1) maxDepth
        else
          ⟨timeStats2, responseInfos1, log ++ [urlArg], none⟩
termination_by maxDepth + 1 - depth
decreasing_by omega

/-- PerformGetRequest, client.go lines 45-66: fresh accumulators, empty
visited set, depth 0, maxDepth 10.  The `headersArg` flag is an opaque
pass-through in the source and is omitted; the temporary CheckRedirect
override only disables the Go client's auto-redirects, which the oracle
already reflects by describing single exchanges. -/
def PerformGetRequest (net : Net) (urlArg : String) : RunResult :=
  performGetRequestRecursive net urlArg {} [] [] [] 0 10

/-- The oracle answers URL `a` with a drained redirect response whose
resolved `Location` is `b`. -/
def redirectsTo (net : Net) (a b : String) : Bool :=
  match net a with
  | none => false
  | some h => h.drainOk && isRedirectStatus h.status && (h.location == some b)

/-- The oracle answers URL `a` with a drained non-redirect response. -/
def finalAt (net : Net) (a : String) : Bool :=
  match net a with
  | none => false
  | some h => h.drainOk && !(isRedirectStatus h.status)

/-! ### Abbreviations used by the lemmas about the engine -/

/-- The `ResponseInfo` the engine appends for a hop (client.go 149-155). -/
def mkInfo (hop : HopResult) (u : String) : ResponseInfo :=
  ⟨hop.status, u, hop.contentSize, hop.requestSendingTime, hop.startTime⟩

/-- Appending a hop's trace record (client.go line 115). -/
def appendTimes (stats : Timings) (tc : TimingsCommon) : Timings :=
  { stats with CommonTimings := stats.CommonTimings ++ [tc] }

/-- The first-hop freeze of the four top-level fields (client.go 158-164):
the two clock reads at lines 160 and 162 both see
`requestSendingTime + drainTime` elapsed since `start`. -/
def freezeTop (stats : Timings) (hop : HopResult) : Timings :=
  { stats with
    RequestSendingTime := hop.requestSendingTime
    ServerProcessingTime :=
      (hop.requestSendingTime + hop.drainTime) - hop.requestSendingTime
    TotalRequestTime := hop.requestSendingTime + hop.drainTime
    ContentTransferTime := hop.drainTime }

/-- The `Timings` value after one successfully drained hop. -/
def hopStats (stats : Timings) (infos : List ResponseInfo) (hop : HopResult) : Timings :=
  if infos = [] then freezeTop (appendTimes stats hop.times) hop
  else appendTimes stats hop.times

/-! ### Step lemmas: one unfolding of the recursion per branch -/

lemma length_append_one_eq_one {α : Type} (l : List α) (x : α) :
    ((l ++ [x]).length = 1) = (l = []) := by
  simp [List.length_append]

lemma go_loop (net : Net) (u : String) (stats : Timings)
    (infos : List ResponseInfo) (log visited : List String) (depth maxDepth : Nat)
    (hv : u ∈ visited) :
    performGetRequestRecursive net u stats infos log visited depth maxDepth =
      ⟨stats, infos, log, some (.redirectLoop u)⟩ := by
  rw [performGetRequestRecursive.eq_def, if_pos hv]

lemma go_depth (net : Net) (u : String) (stats : Timings)
    (infos : List ResponseInfo) (log visited : List String) (depth maxDepth : Nat)
    (hv : u ∉ visited) (hd : depth > maxDepth) :
    performGetRequestRecursive net u stats infos log visited depth maxDepth =
      ⟨stats, infos, log, some (.maxRedirectDepth maxDepth)⟩ := by
  rw [performGetRequestRecursive.eq_def, if_neg hv, dif_pos hd]

lemma go_redirect (net : Net) (u loc : String) (hop : HopResult) (stats : Timings)
    (infos : List ResponseInfo) (log visited : List String) (depth maxDepth : Nat)
    (hv : u ∉ visited) (hd : depth ≤ maxDepth) (hnet : net u = some hop)
    (hok : hop.drainOk = true) (hred : isRedirectStatus hop.status = true)
    (hloc : hop.location = some loc) :
    performGetRequestRecursive net u stats infos log visited depth maxDepth =
      performGetRequestRecursive net loc (hopStats stats infos hop)
        (infos ++ [mkInfo hop u]) (log ++ [u]) (u :: visited) (depth + 1) maxDepth := by
  rw [performGetRequestRecursive.eq_def, if_neg hv, dif_neg (by omega)]
  simp only [hnet, hok, hred, hloc, Bool.true_eq_false, if_false, if_true,
    length_append_one_eq_one, hopStats, appendTimes, freezeTop, mkInfo]

lemma go_final (net : Net) (u : String) (hop : HopResult) (stats : Timings)
    (infos : List ResponseInfo) (log visited : List String) (depth maxDepth : Nat)
    (hv : u ∉ visited) (hd : depth ≤ maxDepth) (hnet : net u = some hop)
    (hok : hop.drainOk = true) (hred : isRedirectStatus hop.status = false) :
    performGetRequestRecursive net u stats infos log visited depth maxDepth =
      ⟨hopStats stats infos hop, infos ++ [mkInfo hop u], log ++ [u], none⟩ := by
  rw [performGetRequestRecursive.eq_def, if_neg hv, dif_neg (by omega)]
  simp only [hnet, hok, hred, Bool.true_eq_false, Bool.false_eq_true, if_false,
    length_append_one_eq_one, hopStats, appendTimes, freezeTop, mkInfo]

lemma go_requestFailed (net : Net) (u : String) (stats : Timings)
    (infos : List ResponseInfo) (log visited : List String) (depth maxDepth : Nat)
    (hv : u ∉ visited) (hd : depth ≤ maxDepth) (hnet : net u = none) :
    performGetRequestRecursive net u stats infos log visited depth maxDepth =
      ⟨stats, infos, log ++ [u], some (.requestFailed u)⟩ := by
  rw [performGetRequestRecursive.eq_def, if_neg hv, dif_neg (by omega)]
  simp only [hnet]

lemma go_drainFail (net : Net) (u : String) (hop : HopResult) (stats : Timings)
    (infos : List ResponseInfo) (log visited : List String) (depth maxDepth : Nat)
    (hv : u ∉ visited) (hd : depth ≤ maxDepth) (hnet : net u = some hop)
    (hok : hop.drainOk = false) :
    performGetRequestRecursive net u stats infos log visited depth maxDepth =
      ⟨appendTimes stats hop.times, infos, log ++ [u], some (.bodyReadFailed u)⟩ := by
  rw [performGetRequestRecursive.eq_def, if_neg hv, dif_neg (by omega)]
  simp only [hnet, hok, if_true, appendTimes]

lemma go_locationNone (net : Net) (u : String) (hop : HopResult) (stats : Timings)
    (infos : List ResponseInfo) (log visited : List String) (depth maxDepth : Nat)
    (hv : u ∉ visited) (hd : depth ≤ maxDepth) (hnet : net u = some hop)
    (hok : hop.drainOk = true) (hred : isRedirectStatus hop.status = true)
    (hloc : hop.location = none) :
    performGetRequestRecursive net u stats infos log visited depth maxDepth =
      ⟨hopStats stats infos hop, infos ++ [mkInfo hop u], log ++ [u],
        some (.locationInvalid u)⟩ := by
  rw [performGetRequestRecursive.eq_def, if_neg hv, dif_neg (by omega)]
  simp only [hnet, hok, hred, hloc, Bool.true_eq_false, if_false, if_true,
    length_append_one_eq_one, hopStats, appendTimes, freezeTop, mkInfo]

/-! ### Chain lemmas -/

lemma hopStats_commonTimings (stats : Timings) (infos : List ResponseInfo)
    (hop : HopResult) :
    (hopStats stats infos hop).CommonTimings = stats.CommonTimings ++ [hop.times] := by
  unfold hopStats freezeTop appendTimes
  split <;> rfl

lemma redirectsTo_elim {net : Net} {a b : String}
    (h : redirectsTo net a b = true) :
    ∃ hop, net a = some hop ∧ hop.drainOk = true ∧
      isRedirectStatus hop.status = true ∧ hop.location = some b := by
  unfold redirectsTo at h
  cases hnet : net a with
  | none => rw [hnet] at h; simp at h
  | some hop =>
    rw [hnet] at h
    simp only [Bool.and_eq_true, beq_iff_eq] at h
    exact ⟨hop, rfl, h.1.1, h.1.2, h.2⟩

lemma finalAt_elim {net : Net} {a : String} (h : finalAt net a = true) :
    ∃ hop, net a = some hop ∧ hop.drainOk = true ∧
      isRedirectStatus hop.status = false := by
  unfold finalAt at h
  cases hnet : net a with
  | none => rw [hnet] at h; simp at h
  | some hop =>
    rw [hnet] at h
    simp only [Bool.and_eq_true, Bool.not_eq_eq_eq_not, Bool.not_true] at h
    exact ⟨hop, rfl, h.1, h.2⟩

lemma chain'_head_link {α : Type} {R : α → α → Prop} {p next : α} {tail : List α}
    (h : List.Chain' R (p :: (tail ++ [next]))) :
    R p (tail.headD next) ∧ List.Chain' R (tail ++ [next]) := by
  cases tail with
  | nil => simpa using h
  | cons q t => simpa using List.chain'_cons.mp h

/-- Advancing the engine across a prefix `ps` of hops each of whose
responses is a drained redirect to the following URL (ending at `next`):
the run reaches `next` with one `ResponseInfo`, one `TimingsCommon` and
one log entry per element of `ps`, the elements of `ps` pushed onto the
visited set, and the depth raised by `ps.length`. -/
lemma go_chain_advance (net : Net) (maxDepth : Nat) :
    ∀ (ps : List String) (next : String) (stats : Timings)
      (infos : List ResponseInfo) (log visited : List String) (depth : Nat),
      List.Chain' (fun a b => redirectsTo net a b = true) (ps ++ [next]) →
      (∀ v ∈ ps, v ∉ visited) → ps.Nodup →
      depth + ps.length ≤ maxDepth + 1 →
      ∃ stats' infos',
        performGetRequestRecursive net (ps.headD next) stats infos log visited
            depth maxDepth
          = performGetRequestRecursive net next stats' infos' (log ++ ps)
              (ps.reverse ++ visited) (depth + ps.length) maxDepth
        ∧ infos'.map (·.URL) = infos.map (·.URL) ++ ps
        ∧ stats'.CommonTimings.length = stats.CommonTimings.length + ps.length := by
  intro ps
  induction ps with
  | nil =>
    intro next stats infos log visited depth _ _ _ _
    exact ⟨stats, infos, by simp, by simp, by simp⟩
  | cons p tail ih =>
    intro next stats infos log visited depth hchain hfresh hnodup hdep
    obtain ⟨hlink, hchain'⟩ := chain'_head_link hchain
    obtain ⟨hop, hnet, hok, hred, hloc⟩ := redirectsTo_elim hlink
    have hv : p ∉ visited := hfresh p (List.mem_cons_self p tail)
    have hstep := go_redirect net p (tail.headD next) hop stats infos log visited
      depth maxDepth hv (by simp at hdep; omega) hnet hok hred hloc
    have hpt : p ∉ tail := (List.nodup_cons.mp hnodup).1
    obtain ⟨stats', infos', heq, hmap, hlen⟩ :=
      ih next (hopStats stats infos hop) (infos ++ [mkInfo hop p]) (log ++ [p])
        (p :: visited) (depth + 1) hchain'
        (by
          intro v hv2
          simp only [List.mem_cons]
          push_neg
          exact ⟨fun hcon => hpt (hcon ▸ hv2), hfresh v (List.mem_cons_of_mem p hv2)⟩)
        (List.nodup_cons.mp hnodup).2
        (by simp at hdep ⊢; omega)
    refine ⟨stats', infos', ?_, ?_, ?_⟩
    · rw [show (p :: tail).headD next = p from rfl, hstep, heq]
      have h1 : (log ++ [p]) ++ tail = log ++ (p :: tail) := by simp
      have h2 : tail.reverse ++ (p :: visited) = (p :: tail).reverse ++ visited := by
        simp
      have h3 : depth + 1 + tail.length = depth + (p :: tail).length := by
        simp [List.length_cons]; omega
      rw [h1, h2, h3]
    · rw [hmap]
      simp [mkInfo]
    · rw [hlen, hopStats_commonTimings]
      simp [List.length_append, List.length_cons]
      omega

/-! ### Preservation of the four top-level duration fields -/

/-- Two `Timings` agree on the four top-level duration fields. -/
def sameTop (a b : Timings) : Prop :=
  a.RequestSendingTime = b.RequestSendingTime ∧
  a.ServerProcessingTime = b.ServerProcessingTime ∧
  a.TotalRequestTime = b.TotalRequestTime ∧
  a.ContentTransferTime = b.ContentTransferTime

lemma sameTop_refl (a : Timings) : sameTop a a := ⟨rfl, rfl, rfl, rfl⟩

lemma appendTimes_sameTop (stats : Timings) (tc : TimingsCommon) :
    sameTop (appendTimes stats tc) stats := ⟨rfl, rfl, rfl, rfl⟩

lemma hopStats_sameTop (stats : Timings) (infos : List ResponseInfo)
    (hop : HopResult) (h : infos ≠ []) :
    sameTop (hopStats stats infos hop) stats := by
  unfold hopStats
  rw [if_neg h]
  exact appendTimes_sameTop stats hop.times

/-- Once the `ResponseInfo` accumulator is nonempty (i.e. the first hop
has been recorded), no later step of the recursion touches the four
top-level duration fields (client.go lines 157-164). -/
lemma go_preserves_top (net : Net) (u : String) (stats : Timings)
    (infos : List ResponseInfo) (log visited : List String) (depth maxDepth : Nat) :
    infos ≠ [] →
    sameTop (performGetRequestRecursive net u stats infos log visited
      depth maxDepth).stats stats := by
  induction u, stats, infos, log, visited, depth, maxDepth
    using performGetRequestRecursive.induct net with
  | case1 u stats infos log visited depth maxDepth hv =>
    intro _
    rw [go_loop net u stats infos log visited depth maxDepth hv]
    exact sameTop_refl stats
  | case2 u stats infos log visited depth maxDepth hv hd =>
    intro _
    rw [go_depth net u stats infos log visited depth maxDepth hv hd]
    exact sameTop_refl stats
  | case3 u stats infos log visited depth maxDepth hv hd hnet =>
    intro _
    rw [go_requestFailed net u stats infos log visited depth maxDepth hv
      (by omega) hnet]
    exact sameTop_refl stats
  | case4 u stats infos log visited depth maxDepth hv hd hop hnet hok =>
    intro _
    rw [go_drainFail net u hop stats infos log visited depth maxDepth hv
      (by omega) hnet hok]
    exact appendTimes_sameTop stats hop.times
  | case5 u stats infos log visited depth maxDepth hv hd hop hnet hok hred hloc =>
    intro hne
    rw [go_locationNone net u hop stats infos log visited depth maxDepth hv
      (by omega) hnet (by simpa using hok) hred hloc]
    exact hopStats_sameTop stats infos hop hne
  | case6 u stats infos log visited depth maxDepth hv hd hop hnet ts1 hok ris1 ts2 hred loc hloc ih =>
    intro hne
    rw [go_redirect net u loc hop stats infos log visited depth maxDepth hv
      (by omega) hnet (by simpa using hok) hred hloc]
    have e1 : ris1 = infos ++ [mkInfo hop u] := rfl
    have hp : 0 < infos.length := List.length_pos.mpr hne
    have hlen : ris1.length ≠ 1 := by
      rw [e1]
      simp only [List.length_append, List.length_cons, List.length_nil]
      omega
    have e2 : ts2 = hopStats stats infos hop := by
      simp only [ts2]
      rw [dif_neg hlen]
      unfold hopStats
      rw [if_neg hne]
      rfl
    have h1 := ih (by rw [e1]; simp)
    rw [e1, e2] at h1
    have h2 := hopStats_sameTop stats infos hop hne
    exact ⟨h1.1.trans h2.1, h1.2.1.trans h2.2.1, h1.2.2.1.trans h2.2.2.1,
      h1.2.2.2.trans h2.2.2.2⟩
  | case7 u stats infos log visited depth maxDepth hv hd hop hnet hok hred =>
    intro hne
    rw [go_final net u hop stats infos log visited depth maxDepth hv
      (by omega) hnet (by simpa using hok) (by simpa using hred)]
    exact hopStats_sameTop stats infos hop hne

/-- On any top-level call whose first `client.Do` succeeds and whose body
drain succeeds, the four top-level duration fields of the returned
`Timings` carry exactly the first hop's frozen values, whatever the rest
of the run does. -/
lemma performGetRequest_first_hop_top (net : Net) (u : String) (hop : HopResult)
    (hnet : net u = some hop) (hok : hop.drainOk = true) :
    (PerformGetRequest net u).stats.RequestSendingTime = hop.requestSendingTime ∧
    (PerformGetRequest net u).stats.ServerProcessingTime =
      (hop.requestSendingTime + hop.drainTime) - hop.requestSendingTime ∧
    (PerformGetRequest net u).stats.TotalRequestTime =
      hop.requestSendingTime + hop.drainTime ∧
    (PerformGetRequest net u).stats.ContentTransferTime = hop.drainTime := by
  unfold PerformGetRequest
  by_cases hred : isRedirectStatus hop.status = true
  · cases hloc : hop.location with
    | none =>
      rw [go_locationNone net u hop {} [] [] [] 0 10 (by simp) (by omega) hnet hok
        hred hloc]
      exact ⟨rfl, rfl, rfl, rfl⟩
    | some loc =>
      rw [go_redirect net u loc hop {} [] [] [] 0 10 (by simp) (by omega) hnet hok
        hred hloc]
      have hp := go_preserves_top net loc (hopStats {} [] hop)
        ([] ++ [mkInfo hop u]) ([] ++ [u]) [u] 1 10 (by simp)
      exact ⟨hp.1, hp.2.1, hp.2.2.1, hp.2.2.2⟩
  · rw [go_final net u hop {} [] [] [] 0 10 (by simp) (by omega) hnet hok
      (by simpa using hred)]
    exact ⟨rfl, rfl, rfl, rfl⟩

/-! ### Concrete oracles used by counterexamples and witnesses -/

/-- A drained `301` response redirecting to `loc`, with request-sending
duration 4ns, body-drain duration 10ns and first byte at 5ns. -/
def redirHop (loc : String) : HopResult :=
  { status := 301, location := some loc, contentSize := 0,
    requestSendingTime := 4, drainTime := 10, drainOk := true,
    firstByteElapsed := 5, startTime := 0, times := {} }

/-- A drained `200` response with the same durations as `redirHop`. -/
def finalHop : HopResult :=
  { status := 200, location := none, contentSize := 0,
    requestSendingTime := 4, drainTime := 10, drainOk := true,
    firstByteElapsed := 5, startTime := 0, times := {} }

/-- A finite redirect chain: each listed URL redirects to the next one,
the last listed URL answers `200`; URLs off the list fail. -/
def chainNet (us : List String) : Net := fun u =>
  match us.findIdx? (· == u) with
  | none => none
  | some i =>
    if i + 1 < us.length then some (redirHop (us.getD (i + 1) ""))
    else some finalHop

/-- A redirect cycle: each listed URL redirects to the next one, the last
listed URL redirects back to the first; URLs off the list fail. -/
def cycleNet (us : List String) : Net := fun u =>
  match us.findIdx? (· == u) with
  | none => none
  | some i => some (redirHop (us.getD ((i + 1) % us.length) ""))

/-- Eleven distinct URLs. -/
def eleven : List String :=
  ["u00", "u01", "u02", "u03", "u04", "u05", "u06", "u07", "u08", "u09", "u10"]

/-- Twelve distinct URLs. -/
def twelve : List String := eleven ++ ["u11"]

/-- Executable check that consecutive list elements satisfy `R`. -/
def chainB (R : String → String → Bool) : List String → Bool
  | [] => true
  | [_] => true
  | a :: b :: t => R a b && chainB R (b :: t)

lemma chainB_iff_chain' (R : String → String → Bool) :
    ∀ l : List String,
      chainB R l = true ↔ List.Chain' (fun a b => R a b = true) l := by
  intro l
  induction l with
  | nil => simp [chainB]
  | cons a t ih =>
    cases t with
    | nil => simp [chainB]
    | cons b t2 =>
      rw [List.chain'_cons, ← ih]
      simp [chainB, Bool.and_eq_true]

lemma headD_congr {α : Type} (l : List α) (a b : α) (h : l ≠ []) :
    l.headD a = l.headD b := by
  cases l with
  | nil => exact absurd rfl h
  | cons x t => rfl

lemma headD_append_singleton {α : Type} (ps : List α) (x : α) (d : α) :
    (ps ++ [x]).headD d = ps.headD x := by
  cases ps <;> rfl

lemma not_mem_of_nodup_append_singleton {α : Type} {ps : List α} {x : α}
    (h : (ps ++ [x]).Nodup) : x ∉ ps := by
  rw [List.nodup_append] at h
  exact fun hm => h.2.2 hm (List.mem_singleton_self x)

/-! ### Claim theorems C1-C5 -/

/-- C1 counterexample: a redirect chain of exactly 11 distinct hops — ten
redirecting responses followed by a `200` — makes `PerformGetRequest`
SUCCEED with 11 recorded hops.  The claim asserts it fails with the
RedirectLimitExceeded error at hop 11 and that the `depth > maxDepth`
check fires before a request is issued for the 11th URL; in fact the 11th
URL is requested at depth 10 and `10 > 10` is false. -/
theorem C1_depth_check_counterexample :
    (PerformGetRequest (chainNet eleven) "u00").err = none ∧
    (PerformGetRequest (chainNet eleven) "u00").infos.length = 11 ∧
    (PerformGetRequest (chainNet eleven) "u00").log = eleven := by
  refine ⟨?_, ?_, ?_⟩ <;>
  simp +decide [PerformGetRequest, performGetRequestRecursive.eq_def, chainNet,
    eleven, redirHop, finalHop, isRedirectStatus]

/-- C1 amended: for a chain of 12 distinct hops — i.e. when the 11th
response is itself a redirect — the engine fails with
RedirectLimitExceeded before a request is issued for the 12th URL: the
request log contains exactly the first 11 URLs of the chain and not the
12th. -/
theorem C1_depth_check_amended (net : Net) (ps : List String) (next : String)
    (hlen : ps.length = 11) (hnd : (ps ++ [next]).Nodup)
    (hchain : List.Chain' (fun a b => redirectsTo net a b = true) (ps ++ [next])) :
    (PerformGetRequest net (ps.headD next)).err =
      some (.maxRedirectDepth 10) ∧
    (PerformGetRequest net (ps.headD next)).log = ps ∧
    next ∉ (PerformGetRequest net (ps.headD next)).log ∧
    (PerformGetRequest net (ps.headD next)).infos.map (·.URL) = ps := by
  have hndps : ps.Nodup := (List.nodup_append.mp hnd).1
  have hnext : next ∉ ps := not_mem_of_nodup_append_singleton hnd
  obtain ⟨stats', infos', heq, hmap, _⟩ :=
    go_chain_advance net 10 ps next {} [] [] [] 0 hchain (by simp) hndps (by omega)
  unfold PerformGetRequest
  rw [heq, go_depth net next stats' infos' ([] ++ ps) (ps.reverse ++ []) (0 + ps.length)
    10 (by simpa using hnext) (by omega)]
  refine ⟨rfl, by simp, by simpa using hnext, by simpa using hmap⟩

/-- C1 witness: the amended statement at a concrete chain of 12 distinct
URLs, each of the first 11 redirecting to the next. -/
theorem C1_depth_check_witness :
    ((eleven.length = 11 ∧ (eleven ++ ["u11"]).Nodup ∧
      List.Chain' (fun a b => redirectsTo (chainNet twelve) a b = true)
        (eleven ++ ["u11"])) ∧
     (PerformGetRequest (chainNet twelve) (eleven.headD "u11")).err =
       some (.maxRedirectDepth 10)) :=
  ⟨⟨by decide, by decide,
    (chainB_iff_chain' (fun a b => redirectsTo (chainNet twelve) a b)
      (eleven ++ ["u11"])).mp (by decide)⟩,
   (C1_depth_check_amended (chainNet twelve) eleven "u11" (by decide) (by decide)
     ((chainB_iff_chain' (fun a b => redirectsTo (chainNet twelve) a b)
       (eleven ++ ["u11"])).mp (by decide))).1⟩

/-- C2 counterexample: a redirect chain that repeats a URL — twelve
distinct URLs each redirecting to the next, the twelfth back to the
first, so the chain's unfolding visits `"u00"` twice — on which the
engine fails with RedirectLimitExceeded, not with the RedirectLoop error
the claim promises for every chain containing a repeated URL. -/
theorem C2_redirect_loop_counterexample :
    redirectsTo (cycleNet twelve) "u11" "u00" = true ∧
    List.Chain' (fun a b => redirectsTo (cycleNet twelve) a b = true) twelve ∧
    (PerformGetRequest (cycleNet twelve) "u00").err =
      some (.maxRedirectDepth 10) := by
  refine ⟨by decide,
    (chainB_iff_chain' (fun a b => redirectsTo (cycleNet twelve) a b) twelve).mp
      (by decide), ?_⟩
  simp +decide [PerformGetRequest, performGetRequestRecursive.eq_def, cycleNet,
    twelve, eleven, redirHop, isRedirectStatus]

/-- C2 amended: for every redirect chain whose repeated URL is reached
within the depth budget — distinct URLs `ds` (at most 11 of them, so that
every hop of `ds` passes the `depth > maxDepth` test) each redirecting to
the next and the last redirecting back to `ds[j]` — the engine fails with
the RedirectLoop error carrying that URL, and no URL is ever requested
twice: the request log is exactly `ds`, with the repeated URL appearing
once.  (If the second occurrence lies beyond the depth budget the run
fails with RedirectLimitExceeded first, per the C2 counterexample.) -/
theorem C2_redirect_loop_amended (net : Net) (ds : List String) (j : Nat)
    (hne : ds ≠ []) (hnd : ds.Nodup) (hlen : ds.length ≤ 11) (hj : j < ds.length)
    (hchain : List.Chain' (fun a b => redirectsTo net a b = true)
      (ds ++ [ds.getD j ""])) :
    (PerformGetRequest net (ds.headD "")).err =
      some (.redirectLoop (ds.getD j "")) ∧
    (PerformGetRequest net (ds.headD "")).log = ds ∧
    (PerformGetRequest net (ds.headD "")).log.count (ds.getD j "") = 1 := by
  have hmem : ds.getD j "" ∈ ds := by
    rw [List.getD_eq_getElem ds "" hj]
    exact List.getElem_mem hj
  obtain ⟨stats', infos', heq, hmap, _⟩ :=
    go_chain_advance net 10 ds (ds.getD j "") {} [] [] [] 0 hchain (by simp) hnd
      (by omega)
  unfold PerformGetRequest
  rw [headD_congr ds "" (ds.getD j "") hne, heq,
    go_loop net (ds.getD j "") stats' infos' ([] ++ ds) (ds.reverse ++ []) (0 + ds.length)
      10 (by simpa using hmem)]
  refine ⟨rfl, by simp, ?_⟩
  simpa using List.count_eq_one_of_mem hnd hmem

/-- C2 witness: the amended statement at a concrete 3-cycle
`a → b → c → a`. -/
theorem C2_redirect_loop_witness :
    ((["a", "b", "c"].Nodup ∧
      List.Chain' (fun x y => redirectsTo (cycleNet ["a", "b", "c"]) x y = true)
        (["a", "b", "c"] ++ [["a", "b", "c"].getD 0 ""])) ∧
     (PerformGetRequest (cycleNet ["a", "b", "c"]) (["a", "b", "c"].headD "")).err =
       some (.redirectLoop (["a", "b", "c"].getD 0 ""))) :=
  ⟨⟨by decide,
    (chainB_iff_chain' (fun x y => redirectsTo (cycleNet ["a", "b", "c"]) x y)
      (["a", "b", "c"] ++ [["a", "b", "c"].getD 0 ""])).mp (by decide)⟩,
   (C2_redirect_loop_amended (cycleNet ["a", "b", "c"]) ["a", "b", "c"] 0
     (by decide) (by decide) (by decide) (by decide)
     ((chainB_iff_chain' (fun x y => redirectsTo (cycleNet ["a", "b", "c"]) x y)
       (["a", "b", "c"] ++ [["a", "b", "c"].getD 0 ""])).mp (by decide))).1⟩

/-- C3: for every redirect chain of at most 10 hops with no repeated URL
and no transport failure — distinct URLs `us`, each non-final one a
drained redirect to the next, the last a drained non-redirect —
`PerformGetRequest` succeeds, and both the `CommonTimings` sequence and
the `ResponseInfo` sequence hold exactly one entry per hop, the
`ResponseInfo` URLs listing the hops in chronological order, with as many
entries as `client.Do` calls (the request log). -/
theorem C3_success_per_hop (net : Net) (us : List String)
    (hne : us ≠ []) (hnd : us.Nodup) (hlen : us.length ≤ 10)
    (hchain : List.Chain' (fun a b => redirectsTo net a b = true) us)
    (hfin : finalAt net (us.getLast hne) = true) :
    (PerformGetRequest net (us.headD "")).err = none ∧
    (PerformGetRequest net (us.headD "")).infos.map (·.URL) = us ∧
    (PerformGetRequest net (us.headD "")).stats.CommonTimings.length = us.length ∧
    (PerformGetRequest net (us.headD "")).log = us := by
  obtain ⟨hop, hnet, hok, hred⟩ := finalAt_elim hfin
  have hdecomp : us.dropLast ++ [us.getLast hne] = us :=
    List.dropLast_append_getLast hne
  have hndps : us.dropLast.Nodup := (List.dropLast_sublist us).nodup hnd
  have hnlast : us.getLast hne ∉ us.dropLast :=
    not_mem_of_nodup_append_singleton (by rw [hdecomp]; exact hnd)
  obtain ⟨stats', infos', heq, hmap, hlen'⟩ :=
    go_chain_advance net 10 us.dropLast (us.getLast hne) {} [] [] [] 0
      (by rw [hdecomp]; exact hchain) (by simp) hndps
      (by have := List.length_dropLast us; omega)
  unfold PerformGetRequest
  have hhead : us.headD "" = us.dropLast.headD (us.getLast hne) := by
    rw [← headD_append_singleton us.dropLast (us.getLast hne) "", hdecomp]
  rw [hhead, heq, go_final net (us.getLast hne) hop stats' infos' ([] ++ us.dropLast)
    (us.dropLast.reverse ++ []) (0 + us.dropLast.length) 10
    (by simpa using hnlast)
    (by have := List.length_dropLast us; omega) hnet hok hred]
  refine ⟨rfl, ?_, ?_, ?_⟩
  · show (infos' ++ [mkInfo hop (us.getLast hne)]).map (·.URL) = us
    rw [List.map_append, hmap]
    simpa [mkInfo] using hdecomp
  · show (hopStats stats' infos' hop).CommonTimings.length = us.length
    rw [hopStats_commonTimings]
    simp only [List.length_append, List.length_cons, List.length_nil] at hlen' ⊢
    have := List.length_dropLast us
    have hpos : 0 < us.length := List.length_pos.mpr hne
    omega
  · show ([] ++ us.dropLast) ++ [us.getLast hne] = us
    simpa using hdecomp

/-- C3 witness: the statement at a concrete 3-hop chain `a → b → c`. -/
theorem C3_success_per_hop_witness :
    ((["a", "b", "c"].Nodup ∧ (3 : Nat) ≤ 10 ∧
      List.Chain' (fun x y => redirectsTo (chainNet ["a", "b", "c"]) x y = true)
        ["a", "b", "c"] ∧
      finalAt (chainNet ["a", "b", "c"]) (["a", "b", "c"].getLast (by decide)) = true) ∧
     (PerformGetRequest (chainNet ["a", "b", "c"]) (["a", "b", "c"].headD "")).err =
       none) :=
  ⟨⟨by decide, by decide,
    (chainB_iff_chain' (fun x y => redirectsTo (chainNet ["a", "b", "c"]) x y)
      ["a", "b", "c"]).mp (by decide), by decide⟩,
   (C3_success_per_hop (chainNet ["a", "b", "c"]) ["a", "b", "c"] (by decide)
     (by decide) (by decide)
     ((chainB_iff_chain' (fun x y => redirectsTo (chainNet ["a", "b", "c"]) x y)
       ["a", "b", "c"]).mp (by decide)) (by decide)).1⟩

/-- C4: the four top-level duration fields of the returned `Timings` are
exactly the first hop's frozen values — request-sending duration, the
post-drain clock reading minus request-sending, the post-drain clock
reading, and the drain duration — for every oracle and start URL whose
first exchange succeeds, regardless of what any later hop measures. -/
theorem C4_top_fields_frozen (net : Net) (u : String) (hop : HopResult)
    (hnet : net u = some hop) (hok : hop.drainOk = true) :
    (PerformGetRequest net u).stats.RequestSendingTime = hop.requestSendingTime ∧
    (PerformGetRequest net u).stats.ServerProcessingTime =
      (hop.requestSendingTime + hop.drainTime) - hop.requestSendingTime ∧
    (PerformGetRequest net u).stats.TotalRequestTime =
      hop.requestSendingTime + hop.drainTime ∧
    (PerformGetRequest net u).stats.ContentTransferTime = hop.drainTime :=
  performGetRequest_first_hop_top net u hop hnet hok

/-- C4 witness: a 2-hop chain whose second hop has different durations
(request-sending 7, drain 20) still reports the first hop's values
(request-sending 4, drain 10). -/
theorem C4_top_fields_frozen_witness :
    ((chainNet ["a", "b"] "a" = some (redirHop "b") ∧
      (redirHop "b").drainOk = true) ∧
     (PerformGetRequest (chainNet ["a", "b"]) "a").stats.RequestSendingTime =
       (redirHop "b").requestSendingTime) :=
  ⟨⟨by decide, by decide⟩,
   (C4_top_fields_frozen (chainNet ["a", "b"]) "a" (redirHop "b") (by decide)
     (by decide)).1⟩

/-- C5 counterexample: one drained hop whose first byte arrived 5ns after
the hop start, with request-sending duration 4ns and drain duration 10ns.
The claim's formula (first-byte-time minus request-sending) gives 1ns,
but the engine stores 10ns, because the clock value it subtracts from is
read only after the body has been fully drained. -/
theorem C5_server_processing_counterexample :
    (PerformGetRequest (chainNet ["a"]) "a").stats.ServerProcessingTime ≠
      finalHop.firstByteElapsed - finalHop.requestSendingTime ∧
    chainNet ["a"] "a" = some finalHop := by
  constructor
  · simp +decide [PerformGetRequest, performGetRequestRecursive.eq_def, chainNet,
      finalHop, isRedirectStatus]
  · decide

/-- C5 amended: the frozen ServerProcessingTime equals the clock reading
taken after the response body has been fully drained minus the
request-sending duration — i.e. it equals the body-drain duration, not
first-byte-time minus request-sending; RequestSendingTime is the duration
of `client.Do` (send start to response-headers-received) as claimed. -/
theorem C5_server_processing_amended (net : Net) (u : String) (hop : HopResult)
    (hnet : net u = some hop) (hok : hop.drainOk = true) :
    (PerformGetRequest net u).stats.ServerProcessingTime =
      (hop.requestSendingTime + hop.drainTime) - hop.requestSendingTime ∧
    (PerformGetRequest net u).stats.ServerProcessingTime = hop.drainTime ∧
    (PerformGetRequest net u).stats.RequestSendingTime = hop.requestSendingTime := by
  have h := performGetRequest_first_hop_top net u hop hnet hok
  exact ⟨h.2.1, by rw [h.2.1]; ring, h.1⟩

/-- C5 witness: the amended statement at a concrete single-hop oracle. -/
theorem C5_server_processing_witness :
    ((chainNet ["w"] "w" = some finalHop ∧ finalHop.drainOk = true) ∧
     (PerformGetRequest (chainNet ["w"]) "w").stats.ServerProcessingTime =
       finalHop.drainTime) :=
  ⟨⟨by decide, by decide⟩,
   (C5_server_processing_amended (chainNet ["w"]) "w" finalHop (by decide)
     (by decide)).2.1⟩

/-! ### Timing aggregation (src/unnamed/part_000 lines 73-93) -/

/-- Go's `Duration.Seconds()` (nanoseconds to seconds), modelled exactly
in `Rat`; the claims about the extractors concern only count and order,
not float rounding. -/
def seconds (d : Int) : Rat := (d : Rat) / 1000000000

/-- ExtractConnectionDurations, src/unnamed/part_000 lines 73-84: one
append of four samples per `CommonTimings` entry, in loop order. -/
def Timings.ExtractConnectionDurations (t : Timings) : List Rat :=
  t.CommonTimings.foldl
    (fun durations common =>
      durations ++
        [seconds common.DNSLookupTime, seconds common.TCPConnTime,
         seconds common.TLSHandshakeTime, seconds common.TTFB])
    []

/-- ExtractDurations, src/unnamed/part_000 lines 87-93. -/
def Timings.ExtractDurations (t : Timings) : List Rat :=
  [seconds t.RequestSendingTime, seconds t.ServerProcessingTime,
   seconds t.ContentTransferTime]

/-- Modelled from the spec (§4.4): the per-hop sample layout the Timing
Aggregator must produce — for each hop, in order, the four values
[DNS, TCP, TLS, TTFB].  Compared below against the implementation. -/
def connSamples : List TimingsCommon → List Rat
  | [] => []
  | common :: rest =>
    [seconds common.DNSLookupTime, seconds common.TCPConnTime,
     seconds common.TLSHandshakeTime, seconds common.TTFB] ++ connSamples rest

lemma foldl_conn_append (l : List TimingsCommon) :
    ∀ acc : List Rat,
      l.foldl
        (fun durations common =>
          durations ++
            [seconds common.DNSLookupTime, seconds common.TCPConnTime,
             seconds common.TLSHandshakeTime, seconds common.TTFB])
        acc = acc ++ connSamples l := by
  induction l with
  | nil => intro acc; simp [connSamples]
  | cons c rest ih =>
    intro acc
    rw [List.foldl_cons, ih, connSamples, List.append_assoc]

lemma connSamples_length (l : List TimingsCommon) :
    (connSamples l).length = 4 * l.length := by
  induction l with
  | nil => simp [connSamples]
  | cons c rest ih =>
    rw [connSamples]
    simp only [List.length_append, List.length_cons, ih]
    simp [List.length_cons]
    ring

/-- C8: `ExtractConnectionDurations` returns exactly 4×N seconds-values
for an N-hop report, laid out hop by hop in the fixed order
[DNS, TCP, TLS, TTFB] (the spec-side layout `connSamples`), and
`ExtractDurations` returns exactly the three top-level values in the
fixed order [request-sending, server-processing, content-transfer]; both
are total functions of the `Timings` value. -/
theorem C8_extractors_shape (t : Timings) :
    t.ExtractConnectionDurations = connSamples t.CommonTimings ∧
    t.ExtractConnectionDurations.length = 4 * t.CommonTimings.length ∧
    t.ExtractDurations =
      [seconds t.RequestSendingTime, seconds t.ServerProcessingTime,
       seconds t.ContentTransferTime] ∧
    t.ExtractDurations.length = 3 := by
  refine ⟨?_, ?_, rfl, rfl⟩
  · rw [Timings.ExtractConnectionDurations, foldl_conn_append]
    simp
  · rw [Timings.ExtractConnectionDurations, foldl_conn_append]
    simp [connSamples_length]

/-! ### TLS classification (client.go lines 293-327) -/

/-- Lowercase hexadecimal digit, as produced by Go's `%x` verb. -/
def hexDigit (n : Nat) : Char :=
  if n < 10 then Char.ofNat (48 + n) else Char.ofNat (87 + n)

/-- Go's `%04x` formatting for a `uint16` value: four lowercase hex
digits with leading zeros (inputs are < 0x10000, where `%04x` pads to
exactly four digits). -/
def hex4 (n : Nat) : String :=
  String.mk [hexDigit (n / 4096 % 16), hexDigit (n / 256 % 16),
             hexDigit (n / 16 % 16), hexDigit (n % 16)]

/-- getTLSVersion, client.go lines 293-306; the Go constants
`tls.VersionTLS10` through `tls.VersionTLS13` are 0x0301-0x0304, and the
default branch is `fmt.Sprintf("Unknown (0x%04x)", version)`. -/
def getTLSVersion (version : Nat) : String :=
  if version = 0x0301 then "TLS 1.0"
  else if version = 0x0302 then "TLS 1.1"
  else if version = 0x0303 then "TLS 1.2"
  else if version = 0x0304 then "TLS 1.3"
  else "Unknown (0x" ++ hex4 version ++ ")"

/-- getTLSCipherSuite, client.go lines 309-327: the nine named suites by
their TLS code points, with the same unknown fallback. -/
def getTLSCipherSuite (cipher : Nat) : String :=
  if cipher = 0xc02f then "ECDHE-RSA-AES128-GCM-SHA256"
  else if cipher = 0xc030 then "ECDHE-RSA-AES256-GCM-SHA384"
  else if cipher = 0xc02b then "ECDHE-ECDSA-AES128-GCM-SHA256"
  else if cipher = 0xc02c then "ECDHE-ECDSA-AES256-GCM-SHA384"
  else if cipher = 0x009c then "RSA-AES128-GCM-SHA256"
  else if cipher = 0x009d then "RSA-AES256-GCM-SHA384"
  else if cipher = 0x1301 then "TLS13-AES-128-GCM-SHA256"
  else if cipher = 0x1302 then "TLS13-AES-256-GCM-SHA384"
  else if cipher = 0x1303 then "TLS13-CHACHA20-POLY1305-SHA256"
  else "Unknown (0x" ++ hex4 cipher ++ ")"

/-- C9: `getTLSVersion` maps the four defined TLS version codes to
"TLS 1.0" through "TLS 1.3" (0x0304 to "TLS 1.3" in particular) and maps
every other code `v` to "Unknown (0x%04x)" formatted with `v`; in
particular 0x9999 maps to "Unknown (0x9999)". -/
theorem C9_getTLSVersion_spec :
    getTLSVersion 0x0301 = "TLS 1.0" ∧ getTLSVersion 0x0302 = "TLS 1.1" ∧
    getTLSVersion 0x0303 = "TLS 1.2" ∧ getTLSVersion 0x0304 = "TLS 1.3" ∧
    (∀ v : Nat, v ≠ 0x0301 → v ≠ 0x0302 → v ≠ 0x0303 → v ≠ 0x0304 →
      getTLSVersion v = "Unknown (0x" ++ hex4 v ++ ")") ∧
    getTLSVersion 0x9999 = "Unknown (0x9999)" := by
  refine ⟨by decide, by decide, by decide, by decide, ?_, by decide⟩
  intro v h1 h2 h3 h4
  unfold getTLSVersion
  rw [if_neg h1, if_neg h2, if_neg h3, if_neg h4]

/-- C9 witness: the fallback clause evaluated at 0x9999. -/
theorem C9_getTLSVersion_witness :
    (((0x9999 : Nat) ≠ 0x0301 ∧ (0x9999 : Nat) ≠ 0x0302 ∧
      (0x9999 : Nat) ≠ 0x0303 ∧ (0x9999 : Nat) ≠ 0x0304) ∧
     getTLSVersion 0x9999 = "Unknown (0x" ++ hex4 0x9999 ++ ")") :=
  ⟨⟨by decide, by decide, by decide, by decide⟩,
   C9_getTLSVersion_spec.2.2.2.2.1 0x9999 (by decide) (by decide) (by decide)
     (by decide)⟩

/-! ### Phase trace collector (createHTTPTrace, client.go lines 181-290) -/

/-- The lifecycle events a request attempt can deliver to the trace
returned by `createHTTPTrace`, each carrying the `time.Now()` value its
handler would observe.  `connectDone`'s `ok` is `err == nil`; `tlsDone`
carries the negotiated version/cipher/resumption from the connection
state; `gotConn`'s `hasConn` is `info.Conn != nil`.  Events whose
handlers do not touch the record (`GetConn`, `WroteHeaderField`,
`WroteHeaders`, `WroteRequest`) are omitted. -/
inductive TraceEvent where
  | dnsStart (t : Int)
  | dnsDone (t : Int)
  | connectStart (t : Int)
  | connectDone (ok : Bool) (addr : String) (t : Int)
  | tlsStart (t : Int)
  | tlsDone (ver cipher : Nat) (resumed : Bool) (t : Int)
  | gotConn (reused hasConn : Bool) (localAddr remoteAddr : String)
  | firstByte (t : Int)
deriving DecidableEq, Repr

/-- The mutable state shared by the trace handlers: the `TimingsCommon`
record plus the local `waitForServerStart` variable of `createHTTPTrace`
(client.go line 182). -/
structure TraceState where
  times : TimingsCommon := {}
  waitForServerStart : Option Int := none
deriving DecidableEq, Repr

/-- Host extraction of the `ConnectDone` handler (client.go lines
212-218): only when the address contains a colon, take the part before
the first colon. -/
def hostOf (addr : String) (old : String) : String :=
  if addr.contains ':' then
    match addr.splitOn ":" with
    | [] => old
    | p :: _ => p
  else old

/-- One trace callback of `createHTTPTrace` (client.go lines 185-289).
Each done-handler guards on its matching start timestamp being non-zero;
`TLSHandshakeDone` unconditionally records `waitForServerStart`;
`GotFirstResponseByte` stores the first-byte timestamp, computes
`WaitingForServerTime` only when `waitForServerStart` was recorded, and
computes `TTFB` (relative to `TCPConnectStart`) only when
`TCPConnectStart` is non-zero. -/
def handleEvent (s : TraceState) (e : TraceEvent) : TraceState :=
  match e with
  | .dnsStart t =>
    { s with times := { s.times with DNSLookupStart := some t } }
  | .dnsDone t =>
    match s.times.DNSLookupStart with
    | none => s
    | some st => { s with times := { s.times with DNSLookupTime := t - st } }
  | .connectStart t =>
    { s with times := { s.times with TCPConnectStart := some t } }
  | .connectDone ok addr t =>
    if ok then
      match s.times.TCPConnectStart with
      | none => s
      | some st =>
        { s with times := { s.times with
            TCPConnTime := t - st
            RemoteAddr := hostOf addr s.times.RemoteAddr } }
    else s
  | .tlsStart t =>
    { s with times := { s.times with TLSHandshakeStart := some t } }
  | .tlsDone ver cipher resumed t =>
    let s1 :=
      match s.times.TLSHandshakeStart with
      | none => s
      | some st =>
        { s with times := { s.times with
            TLSHandshakeTime := t - st
            TLSVersion := getTLSVersion ver
            TLSCipherSuite := getTLSCipherSuite cipher
            TLSResumption := resumed } }
    { s1 with waitForServerStart := some t }
  | .gotConn reused hasConn la ra =>
    if hasConn then
      { s with times := { s.times with
          ConnectionReused := reused, LocalAddr := la, RemoteAddr := ra } }
    else
      { s with times := { s.times with ConnectionReused := reused } }
  | .firstByte t =>
    let s1 := { s with times := { s.times with FirstByteTime := some t } }
    let s2 :=
      match s1.waitForServerStart with
      | none => s1
      | some w =>
        { s1 with times := { s1.times with WaitingForServerTime := t - w } }
    match s2.times.TCPConnectStart with
    | none => s2
    | some c => { s2 with times := { s2.times with TTFB := t - c } }

/-- The trace state after one request attempt delivering `evs`, starting
from the fresh record of client.go line 98. -/
def runTrace (evs : List TraceEvent) : TraceState :=
  evs.foldl handleEvent {}

def isConnectStartEv : TraceEvent → Bool
  | .connectStart _ => true
  | _ => false

def isDnsStartEv : TraceEvent → Bool
  | .dnsStart _ => true
  | _ => false

def isTlsStartEv : TraceEvent → Bool
  | .tlsStart _ => true
  | _ => false

def isFirstByteEv : TraceEvent → Bool
  | .firstByte _ => true
  | _ => false

/-- No `ConnectStart` event fires before any `GotFirstResponseByte`
event in the attempt's event sequence. -/
def noConnectStartBeforeFirstByte : List TraceEvent → Bool
  | [] => true
  | e :: rest =>
    if isConnectStartEv e then rest.all (fun x => !isFirstByteEv x)
    else noConnectStartBeforeFirstByte rest

lemma handleEvent_TTFB (s : TraceState) (e : TraceEvent)
    (h : isFirstByteEv e = false) :
    (handleEvent s e).times.TTFB = s.times.TTFB := by
  cases e with
  | dnsStart t => rfl
  | dnsDone t =>
    simp only [handleEvent]
    cases hds : s.times.DNSLookupStart <;> simp [hds]
  | connectStart t => rfl
  | connectDone ok addr t =>
    simp only [handleEvent]
    cases ok
    · simp
    · cases hcs : s.times.TCPConnectStart <;> simp [hcs]
  | tlsStart t => rfl
  | tlsDone v c r t =>
    simp only [handleEvent]
    cases hts : s.times.TLSHandshakeStart <;> simp [hts]
  | gotConn r hc la ra =>
    simp only [handleEvent]
    cases hc <;> simp
  | firstByte t => simp [isFirstByteEv] at h

lemma handleEvent_firstByte_TTFB (s : TraceState) (t : Int)
    (h : s.times.TCPConnectStart = none) :
    (handleEvent s (.firstByte t)).times.TTFB = s.times.TTFB := by
  simp only [handleEvent]
  cases hw : s.waitForServerStart <;> simp [h, hw]

lemma handleEvent_TCS (s : TraceState) (e : TraceEvent)
    (h : isConnectStartEv e = false) :
    (handleEvent s e).times.TCPConnectStart = s.times.TCPConnectStart := by
  cases e with
  | dnsStart t => rfl
  | dnsDone t =>
    simp only [handleEvent]
    cases hds : s.times.DNSLookupStart <;> simp [hds]
  | connectStart t => simp [isConnectStartEv] at h
  | connectDone ok addr t =>
    simp only [handleEvent]
    cases ok
    · simp
    · cases hcs : s.times.TCPConnectStart <;> simp [hcs]
  | tlsStart t => rfl
  | tlsDone v c r t =>
    simp only [handleEvent]
    cases hts : s.times.TLSHandshakeStart <;> simp [hts]
  | gotConn r hc la ra =>
    simp only [handleEvent]
    cases hc <;> simp
  | firstByte t =>
    simp only [handleEvent]
    cases hw : s.waitForServerStart <;> cases hcs : s.times.TCPConnectStart <;>
      simp [hw, hcs]

lemma foldl_TTFB_of_no_firstByte :
    ∀ (evs : List TraceEvent) (s : TraceState),
      (evs.all fun e => !isFirstByteEv e) = true →
      (evs.foldl handleEvent s).times.TTFB = s.times.TTFB := by
  intro evs
  induction evs with
  | nil => intro s _; rfl
  | cons e rest ih =>
    intro s hall
    rw [List.all_cons, Bool.and_eq_true] at hall
    rw [List.foldl_cons, ih (handleEvent s e) hall.2,
      handleEvent_TTFB s e (by simpa using hall.1)]

lemma ttfb_zero_aux :
    ∀ (evs : List TraceEvent) (s : TraceState),
      noConnectStartBeforeFirstByte evs = true →
      s.times.TCPConnectStart = none → s.times.TTFB = 0 →
      (evs.foldl handleEvent s).times.TTFB = 0 := by
  intro evs
  induction evs with
  | nil => intro s _ _ h3; exact h3
  | cons e rest ih =>
    intro s hno h2 h3
    rw [List.foldl_cons]
    by_cases hcs : isConnectStartEv e = true
    · simp only [noConnectStartBeforeFirstByte, if_pos hcs] at hno
      rw [foldl_TTFB_of_no_firstByte rest (handleEvent s e) hno,
        handleEvent_TTFB s e (by cases e <;> simp_all [isConnectStartEv, isFirstByteEv])]
      exact h3
    · simp only [noConnectStartBeforeFirstByte, if_neg hcs] at hno
      have hcs' : isConnectStartEv e = false := by simpa using hcs
      have htcs : (handleEvent s e).times.TCPConnectStart = none := by
        rw [handleEvent_TCS s e hcs']; exact h2
      have httfb : (handleEvent s e).times.TTFB = 0 := by
        by_cases hfb : isFirstByteEv e = true
        · cases e <;> simp [isFirstByteEv] at hfb
          rw [handleEvent_firstByte_TTFB s _ h2]
          exact h3
        · rw [handleEvent_TTFB s e (by simpa using hfb)]
          exact h3
      exact ih (handleEvent s e) hno htcs httfb

lemma handleEvent_dns (s : TraceState) (e : TraceEvent)
    (h1 : isDnsStartEv e = false) (h2 : s.times.DNSLookupStart = none) :
    (handleEvent s e).times.DNSLookupStart = none ∧
    (handleEvent s e).times.DNSLookupTime = s.times.DNSLookupTime := by
  cases e with
  | dnsStart t => simp [isDnsStartEv] at h1
  | dnsDone t => simp only [handleEvent]; simp [h2]
  | connectStart t => exact ⟨h2, rfl⟩
  | connectDone ok addr t =>
    simp only [handleEvent]
    cases ok
    · simp [h2]
    · cases hcs : s.times.TCPConnectStart <;> simp [hcs, h2]
  | tlsStart t => exact ⟨h2, rfl⟩
  | tlsDone v c r t =>
    simp only [handleEvent]
    cases hts : s.times.TLSHandshakeStart <;> simp [hts, h2]
  | gotConn r hc la ra =>
    simp only [handleEvent]
    cases hc <;> simp [h2]
  | firstByte t =>
    simp only [handleEvent]
    cases hw : s.waitForServerStart <;> cases hcs : s.times.TCPConnectStart <;>
      simp [hw, hcs, h2]

lemma handleEvent_tcp (s : TraceState) (e : TraceEvent)
    (h1 : isConnectStartEv e = false) (h2 : s.times.TCPConnectStart = none) :
    (handleEvent s e).times.TCPConnectStart = none ∧
    (handleEvent s e).times.TCPConnTime = s.times.TCPConnTime := by
  cases e with
  | dnsStart t => exact ⟨h2, rfl⟩
  | dnsDone t =>
    simp only [handleEvent]
    cases hds : s.times.DNSLookupStart <;> simp [hds, h2]
  | connectStart t => simp [isConnectStartEv] at h1
  | connectDone ok addr t =>
    simp only [handleEvent]
    cases ok
    · simp [h2]
    · simp [h2]
  | tlsStart t => exact ⟨h2, rfl⟩
  | tlsDone v c r t =>
    simp only [handleEvent]
    cases hts : s.times.TLSHandshakeStart <;> simp [hts, h2]
  | gotConn r hc la ra =>
    simp only [handleEvent]
    cases hc <;> simp [h2]
  | firstByte t =>
    simp only [handleEvent]
    cases hw : s.waitForServerStart <;> simp [hw, h2]

lemma handleEvent_tls (s : TraceState) (e : TraceEvent)
    (h1 : isTlsStartEv e = false) (h2 : s.times.TLSHandshakeStart = none) :
    (handleEvent s e).times.TLSHandshakeStart = none ∧
    (handleEvent s e).times.TLSHandshakeTime = s.times.TLSHandshakeTime := by
  cases e with
  | dnsStart t => exact ⟨h2, rfl⟩
  | dnsDone t =>
    simp only [handleEvent]
    cases hds : s.times.DNSLookupStart <;> simp [hds, h2]
  | connectStart t => exact ⟨h2, rfl⟩
  | connectDone ok addr t =>
    simp only [handleEvent]
    cases ok
    · simp [h2]
    · cases hcs : s.times.TCPConnectStart <;> simp [hcs, h2]
  | tlsStart t => simp [isTlsStartEv] at h1
  | tlsDone v c r t =>
    simp only [handleEvent]
    simp [h2]
  | gotConn r hc la ra =>
    simp only [handleEvent]
    cases hc <;> simp [h2]
  | firstByte t =>
    simp only [handleEvent]
    cases hw : s.waitForServerStart <;> cases hcs : s.times.TCPConnectStart <;>
      simp [hw, hcs, h2]

lemma dns_zero_aux :
    ∀ (evs : List TraceEvent) (s : TraceState),
      (evs.all fun e => !isDnsStartEv e) = true →
      s.times.DNSLookupStart = none → s.times.DNSLookupTime = 0 →
      (evs.foldl handleEvent s).times.DNSLookupTime = 0 := by
  intro evs
  induction evs with
  | nil => intro s _ _ h3; exact h3
  | cons e rest ih =>
    intro s hall h2 h3
    rw [List.all_cons, Bool.and_eq_true] at hall
    obtain ⟨hs, ht⟩ := handleEvent_dns s e (by simpa using hall.1) h2
    exact ih (handleEvent s e) hall.2 hs (ht.trans h3)

lemma tcp_zero_aux :
    ∀ (evs : List TraceEvent) (s : TraceState),
      (evs.all fun e => !isConnectStartEv e) = true →
      s.times.TCPConnectStart = none → s.times.TCPConnTime = 0 →
      (evs.foldl handleEvent s).times.TCPConnTime = 0 := by
  intro evs
  induction evs with
  | nil => intro s _ _ h3; exact h3
  | cons e rest ih =>
    intro s hall h2 h3
    rw [List.all_cons, Bool.and_eq_true] at hall
    obtain ⟨hs, ht⟩ := handleEvent_tcp s e (by simpa using hall.1) h2
    exact ih (handleEvent s e) hall.2 hs (ht.trans h3)

lemma tls_zero_aux :
    ∀ (evs : List TraceEvent) (s : TraceState),
      (evs.all fun e => !isTlsStartEv e) = true →
      s.times.TLSHandshakeStart = none → s.times.TLSHandshakeTime = 0 →
      (evs.foldl handleEvent s).times.TLSHandshakeTime = 0 := by
  intro evs
  induction evs with
  | nil => intro s _ _ h3; exact h3
  | cons e rest ih =>
    intro s hall h2 h3
    rw [List.all_cons, Bool.and_eq_true] at hall
    obtain ⟨hs, ht⟩ := handleEvent_tls s e (by simpa using hall.1) h2
    exact ih (handleEvent s e) hall.2 hs (ht.trans h3)

/-- C10: in every traced attempt whose event sequence delivers no
TCP-connect-start before the first response byte, the collected record's
TTFB stays zero (the `GotFirstResponseByte` handler computes it only when
`TCPConnectStart` is non-zero); likewise, when the matching start event
never fires, the DNS, TCP and TLS done-handlers leave their duration
fields zero. -/
theorem C10_trace_guards (evs : List TraceEvent) :
    (noConnectStartBeforeFirstByte evs = true →
      (runTrace evs).times.TTFB = 0) ∧
    ((evs.all fun e => !isDnsStartEv e) = true →
      (runTrace evs).times.DNSLookupTime = 0) ∧
    ((evs.all fun e => !isConnectStartEv e) = true →
      (runTrace evs).times.TCPConnTime = 0) ∧
    ((evs.all fun e => !isTlsStartEv e) = true →
      (runTrace evs).times.TLSHandshakeTime = 0) :=
  ⟨fun h => ttfb_zero_aux evs {} h rfl rfl,
   fun h => dns_zero_aux evs {} h rfl rfl,
   fun h => tcp_zero_aux evs {} h rfl rfl,
   fun h => tls_zero_aux evs {} h rfl rfl⟩

/-- C10 witness: a reused-connection attempt — done-events and a first
byte without any start events — leaves TTFB and all three phase
durations zero. -/
theorem C10_trace_guards_witness :
    ((noConnectStartBeforeFirstByte
        [.dnsDone 5, .connectDone true "h:443" 7, .tlsDone 772 4865 false 9,
         .firstByte 11] = true) ∧
     (runTrace
        [.dnsDone 5, .connectDone true "h:443" 7, .tlsDone 772 4865 false 9,
         .firstByte 11]).times.TTFB = 0 ∧
     (runTrace
        [.dnsDone 5, .connectDone true "h:443" 7, .tlsDone 772 4865 false 9,
         .firstByte 11]).times.TCPConnTime = 0) :=
  ⟨by decide,
   (C10_trace_guards
     [.dnsDone 5, .connectDone true "h:443" 7, .tlsDone 772 4865 false 9,
      .firstByte 11]).1 (by decide),
   (C10_trace_guards
     [.dnsDone 5, .connectDone true "h:443" 7, .tlsDone 772 4865 false 9,
      .firstByte 11]).2.2.1 (by decide)⟩

/-! ### Resource-size collector (client.go lines 329-468) -/

/-- Resource, src/unnamed/part_000 lines 54-58 (the Go field `Type` is
spelled `Type'` since `Type` is a Lean keyword). -/
structure Resource where
  URL : String
  Size : Int
  Type' : String
deriving DecidableEq, Repr

/-- ResourceMap, src/unnamed/part_000 line 61: `map[string][]Resource`,
modelled as an association list of buckets, one per content-type key. -/
def ResourceMap : Type := List (String × List Resource)

/-- The map write `resourceMap[r.Type] = append(resourceMap[r.Type], r)`
(client.go lines 371 and 413): append to the bucket keyed by the
resource's content type, creating the bucket if absent. -/
def mapAppend : ResourceMap → Resource → ResourceMap
  | [], r => [(r.Type', [r])]
  | (t, rs) :: rest, r =>
    if t = r.Type' then (t, rs ++ [r]) :: rest
    else (t, rs) :: mapAppend rest r

/-- calculateSize, client.go lines 347-429, for a page whose base URL and
body were read successfully.  The goquery selection
`link[href], script[src], img[src]` is abstracted by taking the list of
discovered reference strings (`resourceURLs`, client.go lines 380-390) as
input, and `fetchResource` (client.go lines 432-468) is the oracle
`fetchRes`: `none` is a failed fetch whose error goes to the `errs`
channel and is printed as a warning, `some r` the measured resource.  The
concurrent fetches write to the map under one mutex; this model serialises
them in document order — the properties proved below (counts, bucketing,
sums) are invariant under reordering.  Returns the map and the warned
links; the Go function's error result is `nil` on this path. -/
def calculateSize (pageURL : String) (pageSize : Int) (pageType : String)
    (resourceURLs : List String) (fetchRes : String → Option Resource) :
    ResourceMap × List String :=
  let pageResource : Resource := ⟨pageURL, pageSize, pageType⟩
  let m0 := mapAppend [] pageResource
  resourceURLs.foldl
    (fun acc link =>
      match fetchRes link with
      | none => (acc.1, acc.2 ++ [link])
      | some r => (mapAppend acc.1 r, acc.2))
    (m0, [])

/-- Number of resources across all buckets. -/
def numResources (m : ResourceMap) : Nat :=
  (m.map fun b => b.2.length).sum

/-- Sum of sizes across all buckets. -/
def totalSize (m : ResourceMap) : Int :=
  (m.map fun b => (b.2.map (·.Size)).sum).sum

/-- Every resource sits in the bucket keyed by its content type. -/
def wellBucketed (m : ResourceMap) : Bool :=
  m.all fun b => b.2.all fun r => r.Type' == b.1

lemma mapAppend_num (m : ResourceMap) (r : Resource) :
    numResources (mapAppend m r) = numResources m + 1 := by
  induction m with
  | nil => simp [mapAppend, numResources]
  | cons b rest ih =>
    obtain ⟨t, rs⟩ := b
    rw [mapAppend]
    split
    · simp [numResources]
      omega
    · simp only [numResources, List.map_cons, List.sum_cons] at ih ⊢
      omega

lemma mapAppend_total (m : ResourceMap) (r : Resource) :
    totalSize (mapAppend m r) = totalSize m + r.Size := by
  induction m with
  | nil => simp [mapAppend, totalSize]
  | cons b rest ih =>
    obtain ⟨t, rs⟩ := b
    rw [mapAppend]
    split
    · simp [totalSize]
      ring
    · simp only [totalSize, List.map_cons, List.sum_cons] at ih ⊢
      rw [ih]
      ring

lemma mapAppend_wellBucketed (m : ResourceMap) (r : Resource)
    (h : wellBucketed m = true) :
    wellBucketed (mapAppend m r) = true := by
  induction m with
  | nil => simp [mapAppend, wellBucketed]
  | cons b rest ih =>
    obtain ⟨t, rs⟩ := b
    rw [wellBucketed, List.all_cons, Bool.and_eq_true] at h
    rw [mapAppend]
    split
    · rename_i ht
      rw [wellBucketed, List.all_cons, Bool.and_eq_true]
      refine ⟨?_, h.2⟩
      rw [List.all_append]
      simp only [Bool.and_eq_true]
      constructor
      · simpa using h.1
      · simp [ht]
    · rw [wellBucketed, List.all_cons, Bool.and_eq_true]
      exact ⟨h.1, ih h.2⟩

lemma calcSize_fold (fetchRes : String → Option Resource) :
    ∀ (urls : List String) (m : ResourceMap) (w : List String),
      (numResources (urls.foldl
        (fun acc link =>
          match fetchRes link with
          | none => (acc.1, acc.2 ++ [link])
          | some r => (mapAppend acc.1 r, acc.2)) (m, w)).1 =
        numResources m + (urls.filter fun l => (fetchRes l).isSome).length) ∧
      ((urls.foldl
        (fun acc link =>
          match fetchRes link with
          | none => (acc.1, acc.2 ++ [link])
          | some r => (mapAppend acc.1 r, acc.2)) (m, w)).2 =
        w ++ urls.filter fun l => (fetchRes l).isNone) ∧
      (totalSize (urls.foldl
        (fun acc link =>
          match fetchRes link with
          | none => (acc.1, acc.2 ++ [link])
          | some r => (mapAppend acc.1 r, acc.2)) (m, w)).1 =
        totalSize m + ((urls.filterMap fetchRes).map (·.Size)).sum) ∧
      (wellBucketed m = true →
        wellBucketed (urls.foldl
          (fun acc link =>
            match fetchRes link with
            | none => (acc.1, acc.2 ++ [link])
            | some r => (mapAppend acc.1 r, acc.2)) (m, w)).1 = true) := by
  intro urls
  induction urls with
  | nil => intro m w; simp
  | cons link rest ih =>
    intro m w
    rw [List.foldl_cons]
    cases hf : fetchRes link with
    | none =>
      have := ih m (w ++ [link])
      simp only [hf]
      refine ⟨?_, ?_, ?_, ?_⟩
      · rw [this.1, List.filter_cons]
        simp [hf]
      · rw [this.2.1, List.filter_cons]
        simp [hf]
      · rw [this.2.2.1, List.filterMap_cons]
        simp [hf]
      · intro hw
        exact this.2.2.2 hw
    | some r =>
      have := ih (mapAppend m r) w
      simp only [hf]
      refine ⟨?_, ?_, ?_, ?_⟩
      · rw [this.1, mapAppend_num, List.filter_cons]
        simp [hf]
        omega
      · rw [this.2.1, List.filter_cons]
        simp [hf]
      · rw [this.2.2.1, mapAppend_total, List.filterMap_cons]
        simp [hf]
        ring
      · intro hw
        exact this.2.2.2 (mapAppend_wellBucketed m r hw)

/-- C6 counterexample: a page (type "text/html", 100 bytes) referencing
one resource (n = 1) that fetches successfully (k = 0): the returned map
holds 2 resources — the fetched one plus the page itself, which
calculateSize unconditionally inserts (client.go lines 363-372) — not the
n − k = 1 the claim asserts. -/
theorem C6_calculate_size_counterexample :
    (calculateSize "p" 100 "text/html" ["r1"]
      (fun l => if l == "r1" then some ⟨"r1", 7, "text/css"⟩ else none)).2.length
      = 0 ∧
    numResources (calculateSize "p" 100 "text/html" ["r1"]
      (fun l => if l == "r1" then some ⟨"r1", 7, "text/css"⟩ else none)).1 = 2 ∧
    2 ≠ (1 : Nat) - 0 := by
  refine ⟨by decide, by decide, by decide⟩

/-- C6 amended: for a document referencing `n` resources of which `k`
fail to fetch, `calculateSize` returns (with nil error) a map containing
exactly the n − k successfully fetched resources PLUS one entry for the
page itself, every resource bucketed under its content-type string, the
total size equal to the page size plus the sum of the fetched resources'
individual sizes, and the k failures surfaced as warnings without
aborting the collection. -/
theorem C6_calculate_size_amended (pageURL : String) (pageSize : Int)
    (pageType : String) (urls : List String)
    (fetchRes : String → Option Resource) :
    numResources (calculateSize pageURL pageSize pageType urls fetchRes).1 =
      1 + (urls.filter fun l => (fetchRes l).isSome).length ∧
    (calculateSize pageURL pageSize pageType urls fetchRes).2 =
      urls.filter (fun l => (fetchRes l).isNone) ∧
    numResources (calculateSize pageURL pageSize pageType urls fetchRes).1 +
      (calculateSize pageURL pageSize pageType urls fetchRes).2.length =
      1 + urls.length ∧
    wellBucketed (calculateSize pageURL pageSize pageType urls fetchRes).1 = true ∧
    totalSize (calculateSize pageURL pageSize pageType urls fetchRes).1 =
      pageSize + ((urls.filterMap fetchRes).map (·.Size)).sum := by
  have h := calcSize_fold fetchRes urls
    (mapAppend [] ⟨pageURL, pageSize, pageType⟩) []
  have hnum : numResources (mapAppend [] (⟨pageURL, pageSize, pageType⟩ : Resource)) = 1 := by
    simp [mapAppend, numResources]
  have htot : totalSize (mapAppend [] (⟨pageURL, pageSize, pageType⟩ : Resource)) = pageSize := by
    simp [mapAppend, totalSize]
  have hwb : wellBucketed (mapAppend [] (⟨pageURL, pageSize, pageType⟩ : Resource)) = true := by
    simp [mapAppend, wellBucketed]
  refine ⟨?_, ?_, ?_, ?_, ?_⟩
  · rw [show (calculateSize pageURL pageSize pageType urls fetchRes) =
      urls.foldl _ (mapAppend [] ⟨pageURL, pageSize, pageType⟩, []) from rfl, h.1, hnum]
  · rw [show (calculateSize pageURL pageSize pageType urls fetchRes) =
      urls.foldl _ (mapAppend [] ⟨pageURL, pageSize, pageType⟩, []) from rfl, h.2.1]
    simp
  · rw [show (calculateSize pageURL pageSize pageType urls fetchRes) =
      urls.foldl _ (mapAppend [] ⟨pageURL, pageSize, pageType⟩, []) from rfl, h.1,
      h.2.1, hnum]
    simp only [List.nil_append]
    have hsplit := List.length_eq_length_filter_add
      (l := urls) (fun l => (fetchRes l).isSome)
    have hco : (urls.filter fun l => (fetchRes l).isNone).length =
        (urls.filter fun l => !(fetchRes l).isSome).length := by
      congr 1
      apply List.filter_congr
      intro x _
      cases fetchRes x <;> simp
    omega
  · rw [show (calculateSize pageURL pageSize pageType urls fetchRes) =
      urls.foldl _ (mapAppend [] ⟨pageURL, pageSize, pageType⟩, []) from rfl]
    exact h.2.2.2 hwb
  · rw [show (calculateSize pageURL pageSize pageType urls fetchRes) =
      urls.foldl _ (mapAppend [] ⟨pageURL, pageSize, pageType⟩, []) from rfl,
      h.2.2.1, htot]

/-! ### Semaphore discipline of the concurrent fetch (client.go 392-420) -/

/-- Small-step model of the semaphore loop of `calculateSize`.  A state
`(pending, inflight)` counts loop iterations not yet past their
`sem <- struct{}{}` send (line 399) and spawned workers that have not yet
run their deferred `<-sem` receive (line 403).  The channel buffer
occupancy always equals `inflight`: each completed send spawns one worker
and each worker receive consumes one token.  A send completes through a
free buffer slot (`start`, requires `inflight < c` for capacity `c`) or
by rendezvous with a worker blocked in its final receive (`handoff`,
requires a worker to exist; the old worker exits as the new one starts);
independently a worker may finish by taking a buffered token (`finish`).
The loop has completed, and `wg.Wait()` (line 419) has passed, exactly in
state `(0, 0)`. -/
inductive SemStep (c : Nat) : Nat × Nat → Nat × Nat → Prop
  | start {p i : Nat} : i < c → SemStep c (p + 1, i) (p, i + 1)
  | handoff {p i : Nat} : 1 ≤ i → SemStep c (p + 1, i) (p, i)
  | finish {p i : Nat} : SemStep c (p, i + 1) (p, i)

/-- Whether any step is enabled in state `s` under capacity `c`. -/
def canStep (c : Nat) (s : Nat × Nat) : Bool :=
  (decide (0 < s.1) && decide (s.2 < c)) || decide (1 ≤ s.2)

/-- C7: the semaphore discipline of `calculateSize` deadlocks at
concurrency 0 — in state `(1, 0)` (one discovered resource URL, no
worker) no step is enabled although the loop has not completed — while
`canStep` exactly characterises step-enabledness, and with capacity ≥ 1
every incomplete state has an enabled step, so the deadlock is specific
to the unclamped `concurrency ≤ 0` case (a negative value makes Go's
`make(chan struct{}, concurrency)` panic outright). -/
theorem C7_semaphore_deadlock :
    canStep 0 (1, 0) = false ∧
    (∀ (c : Nat) (s : Nat × Nat), canStep c s = true ↔ ∃ s', SemStep c s s') ∧
    (∀ (c p i : Nat), 1 ≤ c →
      canStep c (p + 1, i) = true ∧ canStep c (p, i + 1) = true) := by
  refine ⟨by decide, ?_, ?_⟩
  · intro c s
    constructor
    · intro h
      obtain ⟨p, i⟩ := s
      simp only [canStep, Bool.or_eq_true, Bool.and_eq_true, decide_eq_true_eq] at h
      rcases h with ⟨hp, hi⟩ | hi
      · obtain ⟨p', rfl⟩ : ∃ p', p = p' + 1 := ⟨p - 1, by omega⟩
        exact ⟨(p', i + 1), SemStep.start hi⟩
      · obtain ⟨i', rfl⟩ : ∃ i', i = i' + 1 := ⟨i - 1, by omega⟩
        exact ⟨(p, i'), SemStep.finish⟩
    · rintro ⟨s', hs⟩
      cases hs with
      | start h =>
        simp only [canStep, Bool.or_eq_true, Bool.and_eq_true, decide_eq_true_eq]
        exact Or.inl ⟨by omega, h⟩
      | handoff h =>
        simp only [canStep, Bool.or_eq_true, decide_eq_true_eq]
        exact Or.inr h
      | finish =>
        simp only [canStep, Bool.or_eq_true, decide_eq_true_eq]
        exact Or.inr (by omega)
  · intro c p i hc
    constructor
    · simp only [canStep, Bool.or_eq_true, Bool.and_eq_true, decide_eq_true_eq]
      omega
    · simp only [canStep, Bool.or_eq_true, Bool.and_eq_true, decide_eq_true_eq]
      omega

/-- C7 witness: with capacity 1 and one pending resource, a step is
enabled. -/
theorem C7_semaphore_deadlock_witness :
    ((1 : Nat) ≤ 1 ∧ canStep 1 (0 + 1, 0) = true) :=
  ⟨by decide, (C7_semaphore_deadlock.2.2 1 0 0 (by decide)).1⟩

end Headview
